import Mathlib

/-!
Shallow embedding of the two-pass Hack assembler in
`06_assembler/assembler.py`.  Source lines are modelled as lists of
characters (`List Char`), the symbol table as an association list, and
each `raise ValueError` site as a distinct constructor of `AsmError`.
The definitions mirror the Python functions one for one.
-/

/-- Error kinds of the assembler; each constructor corresponds to one
distinct raise site in the source. -/
inductive AsmError where
  | emptyLabel : AsmError
  | duplicateLabel (name : List Char) : AsmError
  | emptyAddress : AsmError
  | addressRange (n : Nat) : AsmError
  | invalidDest (dest line : List Char) : AsmError
  | invalidJump (jump line : List Char) : AsmError
  | invalidComp (comp line : List Char) : AsmError
deriving DecidableEq

/-- The symbol table: a name-to-address association list; keys are only
ever inserted when absent, so lookup order is immaterial. -/
abbrev SymTable := List (List Char × Nat)

/-- `PREDEFINED_SYMBOLS` of the source: SP..THAT, SCREEN, KBD and the
sixteen register aliases R0..R15 produced by the dict comprehension. -/
def PREDEFINED_SYMBOLS : SymTable :=
  [("SP".data, 0), ("LCL".data, 1), ("ARG".data, 2), ("THIS".data, 3),
   ("THAT".data, 4), ("SCREEN".data, 16384), ("KBD".data, 24576),
   ("R0".data, 0), ("R1".data, 1), ("R2".data, 2), ("R3".data, 3),
   ("R4".data, 4), ("R5".data, 5), ("R6".data, 6), ("R7".data, 7),
   ("R8".data, 8), ("R9".data, 9), ("R10".data, 10), ("R11".data, 11),
   ("R12".data, 12), ("R13".data, 13), ("R14".data, 14), ("R15".data, 15)]

/-- `DEST_TABLE` of the source. -/
def DEST_TABLE : List (List Char × List Char) :=
  [("".data, "000".data), ("M".data, "001".data), ("D".data, "010".data),
   ("MD".data, "011".data), ("A".data, "100".data), ("AM".data, "101".data),
   ("AD".data, "110".data), ("AMD".data, "111".data)]

/-- `JUMP_TABLE` of the source. -/
def JUMP_TABLE : List (List Char × List Char) :=
  [("".data, "000".data), ("JGT".data, "001".data), ("JEQ".data, "010".data),
   ("JGE".data, "011".data), ("JLT".data, "100".data), ("JNE".data, "101".data),
   ("JLE".data, "110".data), ("JMP".data, "111".data)]

/-- `COMP_TABLE` of the source: comp (a,c1..c6) bits for the Hack CPU. -/
def COMP_TABLE : List (List Char × List Char) :=
  [("0".data, "0101010".data), ("1".data, "0111111".data),
   ("-1".data, "0111010".data), ("D".data, "0001100".data),
   ("A".data, "0110000".data), ("!D".data, "0001101".data),
   ("!A".data, "0110001".data), ("-D".data, "0001111".data),
   ("-A".data, "0110011".data), ("D+1".data, "0011111".data),
   ("A+1".data, "0110111".data), ("D-1".data, "0001110".data),
   ("A-1".data, "0110010".data), ("D+A".data, "0000010".data),
   ("D-A".data, "0010011".data), ("A-D".data, "0000111".data),
   ("D&A".data, "0000000".data), ("D|A".data, "0010101".data),
   ("M".data, "1110000".data), ("!M".data, "1110001".data),
   ("-M".data, "1110011".data), ("M+1".data, "1110111".data),
   ("M-1".data, "1110010".data), ("D+M".data, "1000010".data),
   ("D-M".data, "1010011".data), ("M-D".data, "1000111".data),
   ("D&M".data, "1000000".data), ("D|M".data, "1010101".data)]

/-- Lookup in a symbol table (Python `dict` lookup / `in` test). -/
def lookupSym (st : SymTable) (k : List Char) : Option Nat :=
  st.lookup k

/-- Split a character list at every occurrence of `sep`
(models `str.splitlines` for LF-separated text). -/
def splitOnChar (sep : Char) : List Char → List (List Char)
  | [] => [[]]
  | c :: cs =>
    match splitOnChar sep cs with
    | [] => [[c]]
    | g :: gs => if c == sep then [] :: g :: gs else (c :: g) :: gs

/-- Everything before the first `//` (models `raw.split("//", 1)[0]`). -/
def beforeComment : List Char → List Char
  | [] => []
  | '/' :: '/' :: _ => []
  | c :: cs => c :: beforeComment cs

/-- Remove leading and trailing whitespace (models `str.strip()`). -/
def pyStrip (l : List Char) : List Char :=
  ((l.dropWhile Char.isWhitespace).reverse.dropWhile Char.isWhitespace).reverse

/-- `clean_lines` of the source: drop inline comments, strip whitespace,
keep only non-empty lines. -/
def clean_lines (text : String) : List (List Char) :=
  (splitOnChar '\n' text.data).filterMap fun raw =>
    let line := pyStrip (beforeComment raw)
    if line.isEmpty then none else some line

/-- First character test (models `str.startswith` for a 1-char prefix). -/
def startsWithChar (c : Char) : List Char → Bool
  | [] => false
  | x :: _ => x == c

/-- Last character test (models `str.endswith` for a 1-char suffix). -/
def endsWithChar (c : Char) (l : List Char) : Bool :=
  startsWithChar c l.reverse

/-- `is_label` of the source. -/
def is_label (line : List Char) : Bool :=
  startsWithChar '(' line && endsWithChar ')' line

/-- `label_name` of the source: `line[1:-1].strip()`. -/
def label_name (line : List Char) : List Char :=
  pyStrip ((line.drop 1).dropLast)

/-- Models `str.isdigit()` for ASCII text: non-empty and all decimal digits. -/
def pyIsDigit (l : List Char) : Bool :=
  !l.isEmpty && l.all Char.isDigit

/-- Models `int(s, 10)` on a decimal-digit string. -/
def pyInt (l : List Char) : Nat :=
  l.foldl (fun acc c => acc * 10 + (c.toNat - 48)) 0

/-- Models `format(n, "016b")` for values below 2^16: bit 15 first. -/
def bits16 (n : Nat) : List Char :=
  (List.range 16).map fun i => if (n / 2 ^ (15 - i)) % 2 = 1 then '1' else '0'

/-- `to_16bit` of the source: range-check [0, 32767] then encode. -/
def to_16bit (n : Nat) : Except AsmError (List Char) :=
  if n ≤ 32767 then .ok (bits16 n) else .error (.addressRange n)

/-- Split a list once at the first occurrence of `sep`
(models `str.split(sep, 1)` when `sep` occurs; `none` = not contained). -/
def splitOnceChar (sep : Char) : List Char → Option (List Char × List Char)
  | [] => none
  | c :: cs =>
    if c == sep then some ([], cs)
    else
      match splitOnceChar sep cs with
      | none => none
      | some (l, r) => some (c :: l, r)

/-- `parse_c_instruction` of the source: split `[dest=]comp[;jump]`,
stripping each produced part. -/
def parse_c_instruction (line : List Char) : List Char × List Char × List Char :=
  let dc : List Char × List Char :=
    match splitOnceChar '=' line with
    | some (d, c) => (pyStrip d, pyStrip c)
    | none => ([], line)
  match splitOnceChar ';' dc.2 with
  | some (c, j) => (dc.1, pyStrip c, pyStrip j)
  | none => (dc.1, dc.2, [])

/-- `first_pass` of the source: record labels, return the label-free
instruction stream together with the extended symbol table. -/
def first_pass : List (List Char) → SymTable → Nat →
    Except AsmError (SymTable × List (List Char))
  | [], st, _ => .ok (st, [])
  | line :: rest, st, rom_address =>
    if is_label line then
      let name := label_name line
      if name = [] then .error .emptyLabel
      else if (lookupSym st name).isSome then .error (.duplicateLabel name)
      else first_pass rest ((name, rom_address) :: st) rom_address
    else
      match first_pass rest st (rom_address + 1) with
      | .error e => .error e
      | .ok (st1, out) => .ok (st1, line :: out)

/-- One iteration of the `second_pass` loop body: translate a single
instruction line, threading the symbol table and `next_var_address`. -/
def p2_step (st : SymTable) (next_var_address : Nat) (line : List Char) :
    Except AsmError (SymTable × Nat × List Char) :=
  if startsWithChar '@' line then
    let sym := pyStrip (line.drop 1)
    if sym = [] then .error .emptyAddress
    else if pyIsDigit sym then
      match to_16bit (pyInt sym) with
      | .error e => .error e
      | .ok b => .ok (st, next_var_address, b)
    else
      match lookupSym st sym with
      | some a =>
        match to_16bit a with
        | .error e => .error e
        | .ok b => .ok (st, next_var_address, b)
      | none =>
        match to_16bit next_var_address with
        | .error e => .error e
        | .ok b => .ok ((sym, next_var_address) :: st, next_var_address + 1, b)
  else
    match parse_c_instruction line with
    | (dest, comp, jump) =>
      match DEST_TABLE.lookup dest, JUMP_TABLE.lookup jump, COMP_TABLE.lookup comp with
      | none, _, _ => .error (.invalidDest dest line)
      | some _, none, _ => .error (.invalidJump jump line)
      | some _, some _, none => .error (.invalidComp comp line)
      | some d, some j, some c =>
        .ok (st, next_var_address, "111".data ++ c ++ d ++ j)

/-- `second_pass` of the source: translate every instruction, allocating
variables from `next_var_address` upward; also returns the final symbol
table and counter. -/
def second_pass : List (List Char) → SymTable → Nat →
    Except AsmError (SymTable × Nat × List (List Char))
  | [], st, nva => .ok (st, nva, [])
  | line :: rest, st, nva =>
    match p2_step st nva line with
    | .error e => .error e
    | .ok (st1, nva1, b) =>
      match second_pass rest st1 nva1 with
      | .error e => .error e
      | .ok (st2, nva2, out) => .ok (st2, nva2, b :: out)

/-- Join binary lines with newlines (models `"\n".join(binary_lines)`). -/
def joinLines : List (List Char) → List Char
  | [] => []
  | [l] => l
  | l :: l2 :: rest => l ++ '\n' :: joinLines (l2 :: rest)

/-- `assemble_text` of the source: seed the table with the predefined
symbols, clean, run both passes, join with a trailing newline. -/
def assemble_text (asm_text : String) : Except AsmError String :=
  let symbol_table : SymTable := PREDEFINED_SYMBOLS
  match first_pass (clean_lines asm_text) symbol_table 0 with
  | .error e => .error e
  | .ok (st1, no_labels) =>
    match second_pass no_labels st1 16 with
    | .error e => .error e
    | .ok (_, _, binary_lines) => .ok (String.mk (joinLines binary_lines ++ ['\n']))

/-! ### Basic lemmas about the helpers -/

lemma lookupSym_cons (n : List Char) (a : Nat) (st : SymTable) (k : List Char) :
    lookupSym ((n, a) :: st) k = if k == n then some a else lookupSym st k := by
  cases h : k == n <;> simp [lookupSym, List.lookup, h]

lemma lookupSym_cons_self (n : List Char) (a : Nat) (st : SymTable) :
    lookupSym ((n, a) :: st) n = some a := by
  simp [lookupSym_cons]

lemma lookupSym_cons_of_some (n : List Char) (a : Nat) (st : SymTable)
    (k : List Char) (v : Nat) (hn : lookupSym st n = none)
    (hk : lookupSym st k = some v) :
    lookupSym ((n, a) :: st) k = some v := by
  have hne : k ≠ n := by
    intro he
    rw [he, hn] at hk
    cases hk
  rw [lookupSym_cons]
  simp [hne, hk]

lemma digit_not_whitespace (c : Char) (h : c.isDigit = true) :
    c.isWhitespace = false := by
  cases hw : c.isWhitespace with
  | false => rfl
  | true =>
    exfalso
    simp [Char.isWhitespace] at hw
    rcases hw with ((h1 | h1) | h1) | h1 <;> subst h1 <;> exact absurd h (by decide)

lemma dropWhile_ws_of_digits (l : List Char) (h : l.all Char.isDigit = true) :
    l.dropWhile Char.isWhitespace = l := by
  cases l with
  | nil => rfl
  | cons c cs =>
    have hc : c.isDigit = true := by
      simp [List.all_cons] at h
      exact h.1
    simp [List.dropWhile_cons, digit_not_whitespace c hc]

lemma pyStrip_of_digits (l : List Char) (h : l.all Char.isDigit = true) :
    pyStrip l = l := by
  unfold pyStrip
  rw [dropWhile_ws_of_digits l h,
    dropWhile_ws_of_digits l.reverse (by simpa using h),
    List.reverse_reverse]

/-! ### Invariants of the first pass -/

lemma fp_preserves (lines : List (List Char)) (st : SymTable) (rom : Nat)
    (st1 : SymTable) (out : List (List Char))
    (h : first_pass lines st rom = .ok (st1, out)) :
    ∀ k v, lookupSym st k = some v → lookupSym st1 k = some v := by
  induction lines generalizing st rom st1 out with
  | nil =>
    intro k v hk
    simp [first_pass] at h
    rw [← h.1]
    exact hk
  | cons line rest ih =>
    intro k v hk
    simp only [first_pass] at h
    split at h
    · split at h
      · simp at h
      · split at h
        · simp at h
        · refine ih _ _ _ _ h k v ?_
          have hnone : lookupSym st (label_name line) = none := by
            rename_i hns
            cases hc : lookupSym st (label_name line)
            · rfl
            · exact absurd (by simp [hc]) hns
          exact lookupSym_cons_of_some _ _ _ _ _ hnone hk
    · cases hr : first_pass rest st (rom + 1) with
      | error e =>
        rw [hr] at h
        simp at h
      | ok p =>
        rw [hr] at h
        simp at h
        rw [← h.1]
        exact ih _ _ _ _ hr k v hk

lemma fp_out (lines : List (List Char)) (st : SymTable) (rom : Nat)
    (st1 : SymTable) (out : List (List Char))
    (h : first_pass lines st rom = .ok (st1, out)) :
    out = lines.filter fun l => !is_label l := by
  induction lines generalizing st rom st1 out with
  | nil =>
    simp [first_pass] at h
    simp [h.2]
  | cons line rest ih =>
    simp only [first_pass] at h
    split at h
    · split at h
      · simp at h
      · split at h
        · simp at h
        · rename_i hl hn hns
          rw [List.filter_cons_of_neg (by simp [hl])]
          exact ih _ _ _ _ h
    · cases hr : first_pass rest st (rom + 1) with
      | error e =>
        rw [hr] at h
        simp at h
      | ok p =>
        rw [hr] at h
        simp at h
        rename_i hl
        rw [List.filter_cons_of_pos (by simp [Bool.not_eq_true] at hl; simp [hl])]
        rw [← h.2]
        have := ih _ _ _ _ hr
        rw [this]

lemma fp_label_addr (lines : List (List Char)) (st : SymTable) (rom : Nat)
    (st1 : SymTable) (out : List (List Char))
    (h : first_pass lines st rom = .ok (st1, out)) :
    ∀ i, (hi : i < lines.length) → is_label lines[i] = true →
      lookupSym st1 (label_name lines[i]) =
        some (rom + ((lines.take i).filter fun l => !is_label l).length) := by
  induction lines generalizing st rom st1 out with
  | nil =>
    intro i hi
    exact absurd hi (by simp)
  | cons line rest ih =>
    intro i hi hlab
    simp only [first_pass] at h
    split at h
    · rename_i hl
      split at h
      · simp at h
      · split at h
        · simp at h
        · rename_i hn hns
          cases i with
          | zero =>
            have hmem : lookupSym ((label_name line, rom) :: st) (label_name line) =
                some rom := lookupSym_cons_self _ _ _
            have hpres := fp_preserves _ _ _ _ _ h _ _ hmem
            simpa using hpres
          | succ j =>
            have hj : j < rest.length := by simpa using hi
            have h3 := ih _ _ _ _ h j hj (by simpa using hlab)
            simpa [List.take_succ_cons, List.filter_cons, hl] using h3
    · rename_i hl
      cases hr : first_pass rest st (rom + 1) with
      | error e =>
        rw [hr] at h
        simp at h
      | ok p =>
        obtain ⟨st2, out2⟩ := p
        rw [hr] at h
        simp at h
        obtain ⟨h1, h2⟩ := h
        cases i with
        | zero => exact absurd (by simpa using hlab) hl
        | succ j =>
          have hj : j < rest.length := by simpa using hi
          have h3 := ih _ _ _ _ hr j hj (by simpa using hlab)
          rw [← h1]
          have hl2 : is_label line = false := by simpa using hl
          simp only [List.getElem_cons_succ, List.take_succ_cons, List.filter_cons,
            hl2, Bool.not_false, if_true, List.length_cons]
          rw [show rom + (((rest.take j).filter fun l => !is_label l).length + 1) =
            rom + 1 + ((rest.take j).filter fun l => !is_label l).length from by omega]
          exact h3

/-! ### Lemmas about the second-pass step -/

lemma to_16bit_ok (m : Nat) (b : List Char) (h : to_16bit m = .ok b) :
    b = bits16 m ∧ m ≤ 32767 := by
  unfold to_16bit at h
  split at h
  · rename_i hle
    simp at h
    exact ⟨h.symm, hle⟩
  · simp at h

lemma bits16_length (n : Nat) : (bits16 n).length = 16 := by
  simp [bits16]

lemma pyIsDigit_all (sym : List Char) (hdig : pyIsDigit sym = true) :
    sym.all Char.isDigit = true := by
  simp [pyIsDigit] at hdig
  simp only [List.all_eq_true]
  exact hdig.2

lemma pyIsDigit_ne_nil (sym : List Char) (hdig : pyIsDigit sym = true) :
    sym ≠ [] := by
  intro he
  subst he
  simp [pyIsDigit] at hdig

lemma p2_step_numeric_ok (st : SymTable) (nva : Nat) (sym : List Char)
    (hdig : pyIsDigit sym = true) (hle : pyInt sym ≤ 32767) :
    p2_step st nva ('@' :: sym) = .ok (st, nva, bits16 (pyInt sym)) := by
  have hstrip : pyStrip sym = sym := pyStrip_of_digits sym (pyIsDigit_all sym hdig)
  have hne : sym ≠ [] := pyIsDigit_ne_nil sym hdig
  simp [p2_step, startsWithChar, hstrip, hne, hdig, to_16bit, hle]

lemma p2_step_numeric_err (st : SymTable) (nva : Nat) (sym : List Char)
    (hdig : pyIsDigit sym = true) (hgt : 32767 < pyInt sym) :
    p2_step st nva ('@' :: sym) = .error (.addressRange (pyInt sym)) := by
  have hstrip : pyStrip sym = sym := pyStrip_of_digits sym (pyIsDigit_all sym hdig)
  have hne : sym ≠ [] := pyIsDigit_ne_nil sym hdig
  have hnle : ¬ pyInt sym ≤ 32767 := by omega
  simp [p2_step, startsWithChar, hstrip, hne, hdig, to_16bit, hnle]

lemma p2_step_found_ok (st : SymTable) (nva : Nat) (sym : List Char) (addr : Nat)
    (hstrip : pyStrip sym = sym) (hne : sym ≠ []) (hdig : pyIsDigit sym = false)
    (hlook : lookupSym st sym = some addr) (hle : addr ≤ 32767) :
    p2_step st nva ('@' :: sym) = .ok (st, nva, bits16 addr) := by
  simp [p2_step, startsWithChar, hstrip, hne, hdig, hlook, to_16bit, hle]

lemma p2_step_found_err (st : SymTable) (nva : Nat) (sym : List Char) (addr : Nat)
    (hstrip : pyStrip sym = sym) (hne : sym ≠ []) (hdig : pyIsDigit sym = false)
    (hlook : lookupSym st sym = some addr) (hgt : 32767 < addr) :
    p2_step st nva ('@' :: sym) = .error (.addressRange addr) := by
  have hnle : ¬ addr ≤ 32767 := by omega
  simp [p2_step, startsWithChar, hstrip, hne, hdig, hlook, to_16bit, hnle]

lemma p2_step_fresh_ok (st : SymTable) (nva : Nat) (sym : List Char)
    (hstrip : pyStrip sym = sym) (hne : sym ≠ []) (hdig : pyIsDigit sym = false)
    (hlook : lookupSym st sym = none) (hle : nva ≤ 32767) :
    p2_step st nva ('@' :: sym) = .ok ((sym, nva) :: st, nva + 1, bits16 nva) := by
  simp [p2_step, startsWithChar, hstrip, hne, hdig, hlook, to_16bit, hle]

lemma p2_step_fresh_err (st : SymTable) (nva : Nat) (sym : List Char)
    (hstrip : pyStrip sym = sym) (hne : sym ≠ []) (hdig : pyIsDigit sym = false)
    (hlook : lookupSym st sym = none) (hgt : 32767 < nva) :
    p2_step st nva ('@' :: sym) = .error (.addressRange nva) := by
  have hnle : ¬ nva ≤ 32767 := by omega
  simp [p2_step, startsWithChar, hstrip, hne, hdig, hlook, to_16bit, hnle]

lemma p2_step_cinstr (st : SymTable) (nva : Nat)
    (line dest comp jump d c j : List Char)
    (hat : startsWithChar '@' line = false)
    (hp : parse_c_instruction line = (dest, comp, jump))
    (hd : DEST_TABLE.lookup dest = some d)
    (hj : JUMP_TABLE.lookup jump = some j)
    (hc : COMP_TABLE.lookup comp = some c) :
    p2_step st nva line = .ok (st, nva, "111".data ++ c ++ d ++ j) := by
  simp [p2_step, hat, hp, hd, hj, hc]

lemma p2_step_preserves (st : SymTable) (nva : Nat) (line : List Char)
    (st2 : SymTable) (nva2 : Nat) (b : List Char)
    (h : p2_step st nva line = .ok (st2, nva2, b)) :
    ∀ k v, lookupSym st k = some v → lookupSym st2 k = some v := by
  intro k v hk
  simp only [p2_step] at h
  split at h
  · split at h
    · simp at h
    · split at h
      · split at h
        · simp at h
        · simp at h
          rw [← h.1]
          exact hk
      · split at h
        · split at h
          · simp at h
          · simp at h
            rw [← h.1]
            exact hk
        · rename_i hnone
          split at h
          · simp at h
          · simp at h
            rw [← h.1]
            rw [List.drop_one] at hnone
            exact lookupSym_cons_of_some _ _ _ _ _ hnone hk
  · split at h
    · simp at h
    · simp at h
    · simp at h
    · simp at h
      rw [← h.1]
      exact hk

lemma sp_preserves (lines : List (List Char)) (st : SymTable) (nva : Nat)
    (st1 : SymTable) (nva1 : Nat) (out : List (List Char))
    (h : second_pass lines st nva = .ok (st1, nva1, out)) :
    ∀ k v, lookupSym st k = some v → lookupSym st1 k = some v := by
  induction lines generalizing st nva st1 nva1 out with
  | nil =>
    intro k v hk
    simp [second_pass] at h
    rw [← h.1]
    exact hk
  | cons line rest ih =>
    intro k v hk
    simp only [second_pass] at h
    split at h
    · simp at h
    · rename_i st2 nva2 b hs
      split at h
      · simp at h
      · rename_i st3 nva3 out3 hr
        simp at h
        rw [← h.1]
        exact ih _ _ _ _ _ hr k v (p2_step_preserves _ _ _ _ _ _ hs k v hk)

lemma lookup_len (tbl : List (List Char × List Char)) (n : Nat)
    (hall : ∀ p ∈ tbl, (Prod.snd p).length = n) (k v : List Char)
    (h : tbl.lookup k = some v) : v.length = n := by
  induction tbl with
  | nil => simp [List.lookup] at h
  | cons e rest ih =>
    obtain ⟨ek, ev⟩ := e
    cases hb : k == ek with
    | true =>
      simp [List.lookup_cons, hb] at h
      rw [← h]
      exact hall (ek, ev) (by simp)
    | false =>
      simp [List.lookup_cons, hb] at h
      exact ih (fun p hp => hall p (by simp [hp])) h

lemma p2_step_len (st : SymTable) (nva : Nat) (line : List Char)
    (st2 : SymTable) (nva2 : Nat) (b : List Char)
    (h : p2_step st nva line = .ok (st2, nva2, b)) : b.length = 16 := by
  have h111 : ("111".data : List Char).length = 3 := by decide
  simp only [p2_step] at h
  split at h
  · split at h
    · simp at h
    · split at h
      · split at h
        · simp at h
        · rename_i ht
          simp at h
          rw [← h.2.2, (to_16bit_ok _ _ ht).1]
          exact bits16_length _
      · split at h
        · split at h
          · simp at h
          · rename_i ht
            simp at h
            rw [← h.2.2, (to_16bit_ok _ _ ht).1]
            exact bits16_length _
        · split at h
          · simp at h
          · rename_i ht
            simp at h
            rw [← h.2.2, (to_16bit_ok _ _ ht).1]
            exact bits16_length _
  · split at h
    · simp at h
    · simp at h
    · simp at h
    · rename_i d j c hdq hjq hcq
      simp at h
      have ld := lookup_len DEST_TABLE 3 (by decide) _ _ hdq
      have lj := lookup_len JUMP_TABLE 3 (by decide) _ _ hjq
      have lc := lookup_len COMP_TABLE 7 (by decide) _ _ hcq
      rw [← h.2.2]
      simp [List.length_append, ld, lj, lc, h111]

/-! ### The claims -/

/-- C1: assembling the six-line source `@2`, `D=A`, `@3`, `D=D+A`, `@0`,
`M=D` produces exactly the six output lines 0000000000000010,
1110110000010000, 0000000000000011, 1110000010010000, 0000000000000000,
1110001100001000, in that order. -/
theorem claim1_concrete_program :
    second_pass (clean_lines "@2\nD=A\n@3\nD=D+A\n@0\nM=D") PREDEFINED_SYMBOLS 16 =
      .ok (PREDEFINED_SYMBOLS, 16,
        ["0000000000000010".data, "1110110000010000".data,
         "0000000000000011".data, "1110000010010000".data,
         "0000000000000000".data, "1110001100001000".data]) ∧
    assemble_text "@2\nD=A\n@3\nD=D+A\n@0\nM=D" =
      .ok "0000000000000010\n1110110000010000\n0000000000000011\n1110000010010000\n0000000000000000\n1110001100001000\n" := by
  exact ⟨by rfl, by rfl⟩

/-- C2: an address-instruction operand that is not all decimal digits and
is absent from the symbol table is bound to the current next-variable
address and the counter increments by one; the counter starts at 16, so
`@foo`, `@bar`, `@foo` assigns foo=16 and bar=17 in first-appearance
order. -/
theorem claim2_fresh_variable_allocation (st : SymTable) (nva : Nat)
    (sym : List Char) (hstrip : pyStrip sym = sym) (hne : sym ≠ [])
    (hdig : pyIsDigit sym = false) (habs : lookupSym st sym = none)
    (hle : nva ≤ 32767) :
    p2_step st nva ('@' :: sym) = .ok ((sym, nva) :: st, nva + 1, bits16 nva) ∧
    second_pass ["@foo".data, "@bar".data, "@foo".data] PREDEFINED_SYMBOLS 16 =
      .ok (("bar".data, 17) :: ("foo".data, 16) :: PREDEFINED_SYMBOLS, 18,
        [bits16 16, bits16 17, bits16 16]) := by
  exact ⟨p2_step_fresh_ok st nva sym hstrip hne hdig habs hle, by rfl⟩

/-- Concrete instance of C2: the first fresh symbol is bound to address 16. -/
theorem claim2_witness :
    p2_step [] 16 ('@' :: "foo".data) =
      .ok ([("foo".data, 16)], 17, bits16 16) :=
  (claim2_fresh_variable_allocation [] 16 "foo".data (by decide) (by decide)
    (by decide) (by rfl) (by decide)).1

/-- C3: Pass 1 returns exactly the non-label lines in order, and maps each
label name to the number of non-label lines strictly preceding it (labels
never increment the instruction counter). -/
theorem claim3_first_pass_labels (lines : List (List Char)) (st st1 : SymTable)
    (out : List (List Char)) (h : first_pass lines st 0 = .ok (st1, out)) :
    out = (lines.filter fun l => !is_label l) ∧
    ∀ i, (hi : i < lines.length) → is_label lines[i] = true →
      lookupSym st1 (label_name lines[i]) =
        some ((lines.take i).filter fun l => !is_label l).length := by
  refine ⟨fp_out _ _ _ _ _ h, ?_⟩
  intro i hi hl
  have h3 := fp_label_addr _ _ _ _ _ h i hi hl
  simpa using h3

/-- Concrete instance of C3: `(LOOP)` after one instruction resolves to 1
and the returned stream is the two instructions. -/
theorem claim3_witness :
    (["@1".data, "(LOOP)".data, "D=A".data].filter fun l => !is_label l) =
      ["@1".data, "D=A".data] ∧
    lookupSym [("LOOP".data, 1)] ("LOOP".data) = some 1 := by
  have h := claim3_first_pass_labels ["@1".data, "(LOOP)".data, "D=A".data] []
    [("LOOP".data, 1)] ["@1".data, "D=A".data] (by rfl)
  exact ⟨h.1.symm, h.2 1 (by decide) (by decide)⟩

/-- C4: a numeric `@`-operand is accepted and zero-extended to 16 bits
exactly when its value is at most 32767, and raises the address-range
error otherwise; `@32767` encodes as 0111111111111111 and `@32768`
fails. -/
theorem claim4_numeric_literals (st : SymTable) (nva : Nat) (sym : List Char)
    (hdig : pyIsDigit sym = true) :
    (pyInt sym ≤ 32767 →
      p2_step st nva ('@' :: sym) = .ok (st, nva, bits16 (pyInt sym))) ∧
    (32767 < pyInt sym →
      p2_step st nva ('@' :: sym) = .error (.addressRange (pyInt sym))) ∧
    p2_step st nva ('@' :: "32767".data) =
      .ok (st, nva, "0111111111111111".data) ∧
    p2_step st nva ('@' :: "32768".data) = .error (.addressRange 32768) := by
  refine ⟨fun hle => p2_step_numeric_ok st nva sym hdig hle,
    fun hgt => p2_step_numeric_err st nva sym hdig hgt, by rfl, by rfl⟩

/-- Concrete instance of C4: `@32767` succeeds, `@32768` fails. -/
theorem claim4_witness :
    p2_step [] 16 ('@' :: "32767".data) =
      .ok ([], 16, "0111111111111111".data) ∧
    p2_step [] 16 ('@' :: "32768".data) = .error (.addressRange 32768) :=
  ⟨(claim4_numeric_literals [] 16 "32767".data (by decide)).2.2.1,
   (claim4_numeric_literals [] 16 "32768".data (by decide)).2.2.2⟩

/-- C5: a compute instruction whose parsed fields are all in their tables
emits 111 ++ comp-code ++ dest-code ++ jump-code, 16 characters, and the
fixed fields of the output decode back to exactly the table codes. -/
theorem claim5_cinstr_encoding (st : SymTable) (nva : Nat)
    (line dest comp jump d c j : List Char)
    (hat : startsWithChar '@' line = false)
    (hp : parse_c_instruction line = (dest, comp, jump))
    (hd : DEST_TABLE.lookup dest = some d)
    (hj : JUMP_TABLE.lookup jump = some j)
    (hc : COMP_TABLE.lookup comp = some c) :
    p2_step st nva line = .ok (st, nva, "111".data ++ c ++ d ++ j) ∧
    ("111".data ++ c ++ d ++ j).length = 16 ∧
    ("111".data ++ c ++ d ++ j).take 3 = "111".data ∧
    (("111".data ++ c ++ d ++ j).drop 3).take 7 = c ∧
    (("111".data ++ c ++ d ++ j).drop 10).take 3 = d ∧
    ("111".data ++ c ++ d ++ j).drop 13 = j := by
  have l3 : ("111".data : List Char).length = 3 := by decide
  have lc := lookup_len COMP_TABLE 7 (by decide) _ _ hc
  have ld := lookup_len DEST_TABLE 3 (by decide) _ _ hd
  have lj := lookup_len JUMP_TABLE 3 (by decide) _ _ hj
  refine ⟨p2_step_cinstr st nva line dest comp jump d c j hat hp hd hj hc,
    ?_, ?_, ?_, ?_, ?_⟩
  · simp [List.length_append, lc, ld, lj, l3]
  · rw [List.append_assoc ("111".data ++ c) d j,
      List.append_assoc ("111".data) c (d ++ j), ← l3, List.take_left]
  · rw [List.append_assoc ("111".data ++ c) d j,
      List.append_assoc ("111".data) c (d ++ j), ← l3, List.drop_left,
      ← lc, List.take_left]
  · have l10 : ("111".data ++ c).length = 10 := by
      simp [List.length_append, lc, l3]
    rw [List.append_assoc ("111".data ++ c) d j, ← l10, List.drop_left,
      ← ld, List.take_left]
  · have l13 : (("111".data ++ c) ++ d).length = 13 := by
      simp [List.length_append, lc, ld, l3]
    rw [← l13, List.drop_left]

/-- Concrete instance of C5: `D=D+A` encodes as 1110000010010000 and its
fields decode to the table codes. -/
theorem claim5_witness :
    p2_step [] 16 ("D=D+A".data) =
      .ok ([], 16, "111".data ++ "0000010".data ++ "010".data ++ "000".data) ∧
    ("111".data ++ "0000010".data ++ "010".data ++ "000".data).length = 16 := by
  have h := claim5_cinstr_encoding [] 16 "D=D+A".data "D".data "D+A".data
    "".data "010".data "0000010".data "000".data (by decide) (by decide)
    (by decide) (by decide) (by decide)
  exact ⟨h.1, h.2.1⟩

/-- C6: a label line fails Pass 1 with the empty-label error when its
trimmed name is empty, and with the duplicate-label error when the name is
already in the symbol table (predefined names included); a source with
`(LOOP)` twice fails with the duplicate-label error. -/
theorem claim6_label_errors (lines : List (List Char)) (st : SymTable)
    (rom : Nat) (line : List Char) (hl : is_label line = true) :
    (label_name line = [] →
      first_pass (line :: lines) st rom = .error .emptyLabel) ∧
    (label_name line ≠ [] → (lookupSym st (label_name line)).isSome = true →
      first_pass (line :: lines) st rom =
        .error (.duplicateLabel (label_name line))) ∧
    first_pass (clean_lines "(LOOP)\n@1\n(LOOP)") PREDEFINED_SYMBOLS 0 =
      .error (.duplicateLabel "LOOP".data) ∧
    first_pass ["(SP)".data] PREDEFINED_SYMBOLS 0 =
      .error (.duplicateLabel "SP".data) := by
  refine ⟨?_, ?_, by rfl, by rfl⟩
  · intro hn
    simp [first_pass, hl, hn]
  · intro hn hs
    simp [first_pass, hl, hn, hs]

/-- Concrete instance of C6: `()` raises the empty-label error and a label
colliding with an existing name raises the duplicate-label error. -/
theorem claim6_witness :
    first_pass ["()".data] [] 0 = .error .emptyLabel ∧
    first_pass ["(X)".data] [("X".data, 0)] 5 =
      .error (.duplicateLabel "X".data) := by
  constructor
  · exact (claim6_label_errors [] [] 0 "()".data (by decide)).1 (by decide)
  · exact (claim6_label_errors [] [("X".data, 0)] 5 "(X)".data (by decide)).2.1
      (by decide) (by decide)

/-- C7 counterexample: the predefined table does not contain six named
registers at addresses 0–4. Filtering out the R-aliases and the two
memory-mapped I/O names leaves five names (SP, LCL, ARG, THIS, THAT),
not six. -/
theorem claim7_counterexample :
    ¬ (((PREDEFINED_SYMBOLS.map Prod.fst).filter fun n =>
        !(startsWithChar 'R' n) && (n != "SCREEN".data) && (n != "KBD".data)).length
      = 6) ∧
    ((PREDEFINED_SYMBOLS.map Prod.fst).filter fun n =>
        !(startsWithChar 'R' n) && (n != "SCREEN".data) && (n != "KBD".data)).length
      = 5 := by
  exact ⟨by decide, by decide⟩

/-- C7 (amended): the predefined table consists of five named registers at
addresses 0–4 (SP, LCL, ARG, THIS, THAT), sixteen aliases R0–R15 at
addresses 0–15, and the two memory-mapped I/O bases SCREEN and KBD; no
pass ever rebinds an existing name, and resolving an address instruction
that references a table-resident name emits exactly its fixed address. -/
theorem claim7_predefined_symbols (st : SymTable) (nva : Nat)
    (name : List Char) (addr : Nat) (hstrip : pyStrip name = name)
    (hne : name ≠ []) (hdig : pyIsDigit name = false)
    (hlook : lookupSym st name = some addr) (hle : addr ≤ 32767) :
    (PREDEFINED_SYMBOLS.filter fun p =>
        !(startsWithChar 'R' p.1) && (p.1 != "SCREEN".data) && (p.1 != "KBD".data)) =
      [("SP".data, 0), ("LCL".data, 1), ("ARG".data, 2), ("THIS".data, 3),
       ("THAT".data, 4)] ∧
    (PREDEFINED_SYMBOLS.filter fun p => startsWithChar 'R' p.1) =
      [("R0".data, 0), ("R1".data, 1), ("R2".data, 2), ("R3".data, 3),
       ("R4".data, 4), ("R5".data, 5), ("R6".data, 6), ("R7".data, 7),
       ("R8".data, 8), ("R9".data, 9), ("R10".data, 10), ("R11".data, 11),
       ("R12".data, 12), ("R13".data, 13), ("R14".data, 14), ("R15".data, 15)] ∧
    (PREDEFINED_SYMBOLS.filter fun p =>
        (p.1 == "SCREEN".data) || (p.1 == "KBD".data)) =
      [("SCREEN".data, 16384), ("KBD".data, 24576)] ∧
    (∀ lines st0 rom st1 out, first_pass lines st0 rom = .ok (st1, out) →
      ∀ k v, lookupSym st0 k = some v → lookupSym st1 k = some v) ∧
    (∀ lines st0 nva0 st1 nva1 out,
      second_pass lines st0 nva0 = .ok (st1, nva1, out) →
      ∀ k v, lookupSym st0 k = some v → lookupSym st1 k = some v) ∧
    p2_step st nva ('@' :: name) = .ok (st, nva, bits16 addr) := by
  exact ⟨by decide, by decide, by decide, fp_preserves, sp_preserves,
    p2_step_found_ok st nva name addr hstrip hne hdig hlook hle⟩

/-- Concrete instance of C7: `@SP` always resolves to address 0. -/
theorem claim7_witness :
    p2_step PREDEFINED_SYMBOLS 16 ('@' :: "SP".data) =
      .ok (PREDEFINED_SYMBOLS, 16, bits16 0) :=
  (claim7_predefined_symbols PREDEFINED_SYMBOLS 16 "SP".data 0 (by decide)
    (by decide) (by decide) (by rfl) (by decide)).2.2.2.2.2

/-- C8: an address instruction whose (non-numeric) symbol is already in
the symbol table emits that existing address and leaves both the table
and the next-variable counter unchanged; a label name used as a variable
reference aliases the label address instead of erroring or allocating. -/
theorem claim8_existing_symbol_resolution (st : SymTable) (nva : Nat)
    (sym : List Char) (addr : Nat) (hstrip : pyStrip sym = sym)
    (hne : sym ≠ []) (hdig : pyIsDigit sym = false)
    (hlook : lookupSym st sym = some addr) (hle : addr ≤ 32767) :
    p2_step st nva ('@' :: sym) = .ok (st, nva, bits16 addr) ∧
    second_pass ["@LOOP".data] [("LOOP".data, 5)] 16 =
      .ok ([("LOOP".data, 5)], 16, [bits16 5]) := by
  exact ⟨p2_step_found_ok st nva sym addr hstrip hne hdig hlook hle, by rfl⟩

/-- Concrete instance of C8: referencing a label leaves table and counter
unchanged and emits the label address. -/
theorem claim8_witness :
    p2_step [("LOOP".data, 5)] 16 ('@' :: "LOOP".data) =
      .ok ([("LOOP".data, 5)], 16, bits16 5) :=
  (claim8_existing_symbol_resolution [("LOOP".data, 5)] 16 "LOOP".data 5
    (by decide) (by decide) (by decide) (by rfl) (by decide)).1

/-- C9: every emitted address goes through the same [0, 32767] range
check: a numeric literal, a table-resident symbol, or a fresh variable
whose address exceeds 32767 raises the address-range error, and every
successfully emitted line has exactly 16 characters. -/
theorem claim9_uniform_range_check (st : SymTable) (nva : Nat)
    (sym : List Char) (addr : Nat) (hstrip : pyStrip sym = sym)
    (hne : sym ≠ []) :
    (pyIsDigit sym = true → 32767 < pyInt sym →
      p2_step st nva ('@' :: sym) = .error (.addressRange (pyInt sym))) ∧
    (pyIsDigit sym = false → lookupSym st sym = some addr → 32767 < addr →
      p2_step st nva ('@' :: sym) = .error (.addressRange addr)) ∧
    (pyIsDigit sym = false → lookupSym st sym = none → 32767 < nva →
      p2_step st nva ('@' :: sym) = .error (.addressRange nva)) ∧
    (∀ line st2 nva2 b, p2_step st nva line = .ok (st2, nva2, b) →
      b.length = 16) := by
  refine ⟨fun hdig hgt => p2_step_numeric_err st nva sym hdig hgt,
    fun hdig hlook hgt =>
      p2_step_found_err st nva sym addr hstrip hne hdig hlook hgt,
    fun hdig hlook hgt =>
      p2_step_fresh_err st nva sym hstrip hne hdig hlook hgt,
    fun line st2 nva2 b h => p2_step_len st nva line st2 nva2 b h⟩

/-- Concrete instance of C9: a fresh variable past address 32767 and a
symbol resolved to 40000 both raise the address-range error. -/
theorem claim9_witness :
    p2_step [] 32768 ('@' :: "x".data) = .error (.addressRange 32768) ∧
    p2_step [("y".data, 40000)] 16 ('@' :: "y".data) =
      .error (.addressRange 40000) := by
  constructor
  · exact (claim9_uniform_range_check [] 32768 "x".data 0 (by decide)
      (by decide)).2.2.1 (by decide) (by rfl) (by decide)
  · exact (claim9_uniform_range_check [("y".data, 40000)] 16 "y".data 40000
      (by decide) (by decide)).2.1 (by decide) (by rfl) (by decide)

/-- C10: when Pass 1 leaves no instructions (empty input, only comments,
blank lines or labels), the driver returns the single character newline,
the unconditionally appended trailing separator. -/
theorem claim10_empty_program_newline (text : String) (st1 : SymTable)
    (hfp : first_pass (clean_lines text) PREDEFINED_SYMBOLS 0 = .ok (st1, [])) :
    assemble_text text = .ok "\n" := by
  simp only [assemble_text]
  rw [hfp]
  rfl

/-- Concrete instance of C10: the empty source assembles to a lone
newline. -/
theorem claim10_witness : assemble_text "" = .ok "\n" :=
  claim10_empty_program_newline "" PREDEFINED_SYMBOLS (by rfl)
